import Mathlib

/-!
Aromalib, the vanilla JavaScript chat client.

A shallow embedding of `src/js/vanilla/client/aromalib.js` and theorems about it.

The client is a JavaScript class whose methods mutate the object, write to a
WebSocket and call application callbacks. The embedding makes all of that
explicit:

* `AromaClient` holds the fields assigned in the constructor;
* `World` pairs the client with the two things an observer can see from outside:
  the list of callback invocations and the list of payloads handed to
  `WebSocket.send`;
* every method is a function `World → Result`, where the `Result` carries the
  world after the call and the exception the call threw, if it threw one. What
  happened before the exception stays in the world, as it does in JavaScript;
* the host environment is not modelled, it is an input: whether
  `new WebSocket(url)` accepts the address, whether `ws.send` throws, what
  `JSON.parse` returned, and whether an application callback throws
  (`Throws`, which may depend on everything that was called before).

Application callbacks are opaque: they are identified by a number and are only
observed through the invocation list. Calls they make back into the client are
ordinary method calls and appear as steps of their own.
-/

namespace Aromalib

/-! ## JavaScript values -/

/-- The JavaScript values the client can meet in a decoded packet: the results of
`JSON.parse`, and `undefined` for a property that is not there. A number carries
the text `Number.prototype.toString` gives for it, which is all the client can
observe of it. An object lists its own properties, each key once. -/
inductive JsVal where
  | undefined
  | null
  | bool (b : Bool)
  | num (text : String)
  | str (s : String)
  | arr (items : List JsVal)
  | obj (fields : List (String × JsVal))

/-- The exceptions that leave a method of the client. -/
inductive JsError where
  | typeError
  | syntaxError
  | invalidStateError
  | thrownBy (callback : Nat)
  deriving DecidableEq, Repr

/-- Own-property test on the property list of an object. -/
def hasOwn (key : String) : List (String × JsVal) → Bool
  | [] => false
  | (k, _) :: rest => k == key || hasOwn key rest

/-- Own-property read on the property list of an object. -/
def getOwn (key : String) : List (String × JsVal) → JsVal
  | [] => .undefined
  | (k, v) :: rest => if k == key then v else getOwn key rest

/-- One round of the loop of `Array.prototype.join`: the text of the element in hand,
then, unless it is the last, a comma and the text of the elements after it. `none`
stands for a `TypeError`, see `jsToString`. -/
def joinStep (first : Option String) (last : Bool) (others : Option String) :
    Option String :=
  match first with
  | none => none
  | some a => if last then some a else others.map fun b => a ++ "," ++ b

/-- The `Array.prototype.join` with the default separator, which is what
`Array.prototype.toString` calls: the texts of the elements, `undefined` and `null`
counting as empty, with a comma between them. -/
def jsJoin : List JsVal → Option String
  | [] => some ""
  | .undefined :: rest => joinStep (some "") rest.isEmpty (jsJoin rest)
  | .null :: rest => joinStep (some "") rest.isEmpty (jsJoin rest)
  | .bool b :: rest =>
    joinStep (some (if b then "true" else "false")) rest.isEmpty (jsJoin rest)
  | .num text :: rest => joinStep (some text) rest.isEmpty (jsJoin rest)
  | .str s :: rest => joinStep (some s) rest.isEmpty (jsJoin rest)
  | .arr items :: rest => joinStep (jsJoin items) rest.isEmpty (jsJoin rest)
  | .obj fields :: rest =>
    joinStep (if hasOwn "toString" fields then none else some "[object Object]")
      rest.isEmpty (jsJoin rest)

/-- The abstract operation `ToString`, which a template literal applies to each
substitution. `none` stands for the `TypeError` of `OrdinaryToPrimitive`: a decoded
object with an own `toString` property shadows `Object.prototype.toString` with
something that is not callable, and `valueOf` does not give a primitive. -/
def jsToString : JsVal → Option String
  | .undefined => some "undefined"
  | .null => some "null"
  | .bool b => some (if b then "true" else "false")
  | .num text => some text
  | .str s => some s
  | .arr items => jsJoin items
  | .obj fields => if hasOwn "toString" fields then none else some "[object Object]"

/-- The abstract operation `ToBoolean`: is the value truthy. -/
def jsTruthy : JsVal → Bool
  | .undefined => false
  | .null => false
  | .bool b => b
  | .num text => !(text == "0" || text == "NaN")
  | .str s => !(s == "")
  | .arr _ => true
  | .obj _ => true

/-- The property read `value.key` on a decoded value when `key` names no method or
accessor of the built-in prototypes (as is the case for `type`): `null` and
`undefined` have no properties and the read throws, an object gives its own
property, everything else gives `undefined`. -/
def jsGet (value : JsVal) (key : String) : Option JsVal :=
  match value with
  | .undefined => none
  | .null => none
  | .obj fields => some (getOwn key fields)
  | _ => some .undefined

/-- The property names of `Object.prototype`, which every object literal inherits. -/
def objectPrototypeKeys : List String :=
  ["constructor", "__defineGetter__", "__defineSetter__", "hasOwnProperty",
   "__lookupGetter__", "__lookupSetter__", "isPrototypeOf", "propertyIsEnumerable",
   "toString", "valueOf", "__proto__", "toLocaleString"]

/-- The operator `key in object` for an object literal with the given own keys:
the keys are searched first, then `Object.prototype`. -/
def jsIn (key : String) (ownKeys : List String) : Bool :=
  ownKeys.contains key || objectPrototypeKeys.contains key

/-! ## JSON text -/

/-- One code point inside a JSON string literal, as `QuoteJSONString` writes it. -/
def quoteJSONChar (c : Char) : String :=
  if c = '\x08' then "\\b"
  else if c = '\t' then "\\t"
  else if c = '\n' then "\\n"
  else if c = '\x0c' then "\\f"
  else if c = '\r' then "\\r"
  else if c = '"' then "\\\""
  else if c = '\\' then "\\\\"
  else if c.toNat < 0x20 then
    "\\u00" ++ String.singleton (Nat.digitChar (c.toNat / 16))
      ++ String.singleton (Nat.digitChar (c.toNat % 16))
  else String.singleton c

/-- The abstract operation `QuoteJSONString` on a string of Unicode scalar values. -/
def quoteJSONString (s : String) : String :=
  "\"" ++ String.join (s.toList.map quoteJSONChar) ++ "\""

/-- One `key:value` member of a serialised object. -/
def JSON.member (kv : String × String) : String :=
  quoteJSONString kv.1 ++ ":" ++ quoteJSONString kv.2

/-- The `JSON.stringify` of an object literal whose property values are strings,
given as its properties in creation order (none of the keys the client uses is an
array index, so creation order is enumeration order). -/
def JSON.stringify (properties : List (String × String)) : String :=
  "\x7b" ++ String.intercalate "," (properties.map JSON.member) ++ "\x7d"

/-! ## Protocol data -/

def AROMA_PROTOCOL_VERSION : String := "0.0.5"
def AROMA_SECURE_PORT : Nat := 1990
def AROMA_PORT : Nat := 1989
def AROMA_PATH : String := "aromachat/chat"

/-- The shape of the object `AromaEvent`. -/
structure AromaEventTable where
  establish : String
  login : String
  logout : String
  join : String
  leave : String
  usermessage : String
  userlogin : String
  userlogout : String
  userjoin : String
  userleave : String

/-- The object `AromaEvent`: available events. -/
def AromaEvent : AromaEventTable where
  establish := "establish"
  login := "login"
  logout := "logout"
  join := "join"
  leave := "leave"
  usermessage := "usermessage"
  userlogin := "userlogin"
  userlogout := "userlogout"
  userjoin := "userjoin"
  userleave := "userleave"

/-- The own property names of `AromaEvent`, for the operator `in`. -/
def AromaEvent.keys : List String :=
  ["establish", "login", "logout", "join", "leave", "usermessage", "userlogin",
   "userlogout", "userjoin", "userleave"]

/-- The shape of the object `AromaError`. The last property name is misspelt in
the source; its value is not. -/
structure AromaErrorTable where
  wserror : String
  disconnect : String
  invalidtype : String
  unknwonhost : String

/-- The object `AromaError`: available errors. -/
def AromaError : AromaErrorTable where
  wserror := "wserror"
  disconnect := "disconnect"
  invalidtype := "invalidtype"
  unknwonhost := "unknownhost"

/-- The ten values of `AromaEvent`. -/
def eventKinds : List String :=
  [AromaEvent.establish, AromaEvent.login, AromaEvent.logout, AromaEvent.join,
   AromaEvent.leave, AromaEvent.usermessage, AromaEvent.userlogin,
   AromaEvent.userlogout, AromaEvent.userjoin, AromaEvent.userleave]

/-- The four values of `AromaError`. -/
def errorKinds : List String :=
  [AromaError.wserror, AromaError.disconnect, AromaError.invalidtype,
   AromaError.unknwonhost]

/-! ## The client and what it acts on -/

/-- An application callback, a function object known by its identity. -/
structure Callback where
  id : Nat
  deriving DecidableEq, Repr

/-- The `CloseEvent` of a WebSocket. -/
structure CloseEvent where
  code : Nat
  reason : String
  wasClean : Bool
  deriving DecidableEq, Repr

/-- What a callback is called with: a decoded packet or the literal `{}`, the raw
close event, or the raw error event (an `Event` without data, known by identity). -/
inductive Payload where
  | value (v : JsVal)
  | close (event : CloseEvent)
  | error (event : Nat)

/-- One call of a callback with its argument. -/
abbrev Invocation := Callback × Payload

/-- The behaviour of the application callbacks: given the invocations made so far,
does this call of the callback with this argument throw. -/
abbrev Throws := List Invocation → Callback → Payload → Bool

/-- The WebSocket created by `connect`. -/
structure WebSocket where
  url : String
  deriving DecidableEq, Repr

/-- A listener registry: an object literal whose properties are arrays of callbacks. -/
abbrev Registry := List (String × List Callback)

/-- The fields of an `AromaClient` object. -/
structure AromaClient where
  targetHost : String
  username : String
  ws : Option WebSocket
  connected : Bool
  loggedin : Bool
  textChannel : Option String
  eventListeners : Registry
  errorHandlers : Registry
  deriving DecidableEq, Repr

/-- The client together with what it has done to the outside: the callback
invocations and the payloads accepted by `WebSocket.send`, oldest first. -/
structure World where
  client : AromaClient
  calls : List Invocation
  wire : List String

/-- The outcome of a call: the world after it and the exception it threw, if any. -/
abbrev Result := World × Option JsError

/-- The answer of the host to `ws.send(data)`: the data is taken, or the call
throws `InvalidStateError` (the socket is still connecting). -/
inductive SendResult where
  | accepted
  | invalidState
  deriving DecidableEq, Repr

/-- The constructor of `AromaClient`. -/
def AromaClient.new (targetHost username : String) : AromaClient where
  targetHost := targetHost
  username := username
  ws := none
  connected := false
  loggedin := false
  textChannel := none
  eventListeners :=
    [("onestablish", []), ("onlogin", []), ("onlogout", []), ("onjoin", []),
     ("onleave", []), ("onusermessage", []), ("onuserlogin", []),
     ("onuserlogout", []), ("onuserjoin", []), ("onuserleave", [])]
  errorHandlers :=
    [("onwserror", []), ("ondisconnect", []), ("oninvalidtype", []),
     ("onunknownhost", [])]

/-- The world right after `new AromaClient(targetHost, username)`. -/
def World.init (targetHost username : String) : World where
  client := AromaClient.new targetHost username
  calls := []
  wire := []

/-- The read `registry[key]` followed by a method call on the result (`forEach`,
`push`): `none` stands for the `TypeError` of that call. The key is missing and the
read gives `undefined`, or the key names a function inherited from
`Object.prototype`, which has neither method. -/
def Registry.get (registry : Registry) (key : String) : Option (List Callback) :=
  registry.lookup key

/-- The effect of `registry[key].push(callback)` on the registry when the key is there. -/
def Registry.push (registry : Registry) (key : String) (callback : Callback) : Registry :=
  registry.map fun entry =>
    (entry.1, if entry.1 == key then entry.2 ++ [callback] else entry.2)

/-- The `Array.prototype.forEach` over an array of callbacks, each called with the
same argument: calls are made in index order and the first one that throws ends
the loop with its exception. -/
def forEachCall (throws : Throws) (argument : Payload) : List Callback → World → Result
  | [], w => (w, none)
  | f :: rest, w =>
    let called : World := { w with calls := w.calls ++ [(f, argument)] }
    if throws w.calls f argument then (called, some (.thrownBy f.id))
    else forEachCall throws argument rest called

/-- Call all event handlers. -/
def callEventListeners (throws : Throws) (event : Payload) (eventType : JsVal)
    (w : World) : Result :=
  match jsToString eventType with
  | none => (w, some .typeError)
  | some text =>
    match w.client.eventListeners.get ("on" ++ text) with
    | none => (w, some .typeError)
    | some listeners => forEachCall throws event listeners w

/-- Call all error handlers. -/
def callErrorHandlers (throws : Throws) (error : Payload) (errorType : JsVal)
    (w : World) : Result :=
  match jsToString errorType with
  | none => (w, some .typeError)
  | some text =>
    match w.client.errorHandlers.get ("on" ++ text) with
    | none => (w, some .typeError)
    | some handlers => forEachCall throws error handlers w

/-- The address `connect` gives to `new WebSocket`. -/
def connectUrl (client : AromaClient) : String :=
  "ws://" ++ client.targetHost ++ ":" ++ toString AROMA_PORT ++ "/" ++ AROMA_PATH
    ++ "?username=" ++ client.username ++ "&protocol=" ++ AROMA_PROTOCOL_VERSION

/-- Connect to the server. `urlAccepted` is the answer of `new WebSocket`, which
throws `SyntaxError` for an address it cannot parse; the assignment to `this.ws`
then does not happen. The three callbacks the method installs on the socket are
`onmessage`, `onerror` and `onclose` below. -/
def connect (urlAccepted : Bool) (w : World) : Result :=
  if urlAccepted then
    ({ w with client := { w.client with ws := some { url := connectUrl w.client } } }, none)
  else (w, some .syntaxError)

/-- The callback `ws.onmessage`. `decoded` is the result of `JSON.parse(event.data)`,
`none` when it throws `SyntaxError`. -/
def onmessage (throws : Throws) (decoded : Option JsVal) (w : World) : Result :=
  match decoded with
  | none => (w, some .syntaxError)
  | some packet =>
    match jsGet packet "type" with
    | none => (w, some .typeError)
    | some type =>
      -- `!packet.type in AromaEvent` is `(!packet.type) in AromaEvent`
      if jsIn (toString (!jsTruthy type)) AromaEvent.keys then
        callErrorHandlers throws (.value (.obj [])) (.str AromaError.invalidtype) w
      else
        callEventListeners throws (.value packet) type w

/-- The callback `ws.onerror`. -/
def onerror (throws : Throws) (event : Nat) (w : World) : Result :=
  callErrorHandlers throws (.error event) (.str AromaError.wserror) w

/-- The callback `ws.onclose`. -/
def onclose (throws : Throws) (event : CloseEvent) (w : World) : Result :=
  if event.code = 1000 then
    callEventListeners throws (.close event) (.str AromaEvent.logout) w
  else
    callErrorHandlers throws (.close event) (.str AromaError.disconnect) w

/-- The call `this.ws.send(data)`: a `TypeError` while `this.ws` is `null`,
otherwise what the host answers. -/
def wsSend (answer : SendResult) (data : String) (w : World) : Result :=
  match w.client.ws with
  | none => (w, some .typeError)
  | some _ =>
    match answer with
    | .accepted => ({ w with wire := w.wire ++ [data] }, none)
    | .invalidState => (w, some .invalidStateError)

/-- Send a user-message to the server. -/
def sendMessage (answer : SendResult) (message : String) (w : World) : Result :=
  wsSend answer (JSON.stringify [("type", AromaEvent.usermessage), ("content", message)]) w

/-- Add an event listener. -/
def addEventListener (eventType : JsVal) (eventListener : Callback) (w : World) : Result :=
  match jsToString eventType with
  | none => (w, some .typeError)
  | some text =>
    match w.client.eventListeners.get ("on" ++ text) with
    | none => (w, some .typeError)
    | some _ =>
      ({ w with client := { w.client with
          eventListeners := w.client.eventListeners.push ("on" ++ text) eventListener } },
        none)

/-- Add an error handler. -/
def addErrorHandler (errorType : JsVal) (errorHandler : Callback) (w : World) : Result :=
  match jsToString errorType with
  | none => (w, some .typeError)
  | some text =>
    match w.client.errorHandlers.get ("on" ++ text) with
    | none => (w, some .typeError)
    | some _ =>
      ({ w with client := { w.client with
          errorHandlers := w.client.errorHandlers.push ("on" ++ text) errorHandler } },
        none)

/-- Connect to a text channel on the remote server. -/
def joinTextChannel (answer : SendResult) (channel : String) (w : World) : Result :=
  match wsSend answer (JSON.stringify [("type", AromaEvent.join), ("channel", channel)]) w with
  | (sent, none) => ({ sent with client := { sent.client with textChannel := some channel } }, none)
  | (failed, some e) => (failed, some e)

/-- Leave the current text channel on the remote server. -/
def leaveTextChannel (answer : SendResult) (w : World) : Result :=
  match wsSend answer (JSON.stringify [("type", AromaEvent.leave)]) w with
  | (sent, none) => ({ sent with client := { sent.client with textChannel := none } }, none)
  | (failed, some e) => (failed, some e)

/-! ## Runs of the client -/

/-- One thing that happens to a client: a method call by the application or a
callback from a socket, with the answers of the host it meets. -/
inductive Op where
  | connect (urlAccepted : Bool)
  | sendMessage (answer : SendResult) (message : String)
  | joinTextChannel (answer : SendResult) (channel : String)
  | leaveTextChannel (answer : SendResult)
  | addEventListener (eventType : JsVal) (eventListener : Callback)
  | addErrorHandler (errorType : JsVal) (errorHandler : Callback)
  | onmessage (decoded : Option JsVal)
  | onerror (event : Nat)
  | onclose (event : CloseEvent)

/-- The outcome of one operation. The socket callbacks are allowed in every state, also
before the first `connect`; that only adds runs to the ones a browser can produce. -/
def step (throws : Throws) (op : Op) (w : World) : Result :=
  match op with
  | .connect urlAccepted => connect urlAccepted w
  | .sendMessage answer message => sendMessage answer message w
  | .joinTextChannel answer channel => joinTextChannel answer channel w
  | .leaveTextChannel answer => leaveTextChannel answer w
  | .addEventListener eventType eventListener => addEventListener eventType eventListener w
  | .addErrorHandler errorType errorHandler => addErrorHandler errorType errorHandler w
  | .onmessage decoded => onmessage throws decoded w
  | .onerror event => onerror throws event w
  | .onclose event => onclose throws event w

/-- The world after a sequence of operations. An operation that throws leaves the
world as it was at the throw, and the run goes on: the exception went to the caller. -/
def run (throws : Throws) (ops : List Op) (w : World) : World :=
  ops.foldl (fun world op => (step throws op world).1) w

/-- The property names the constructor gives to `eventListeners`. -/
def eventKeys : List String := eventKinds.map fun kind => "on" ++ kind

/-- The property names the constructor gives to `errorHandlers`. -/
def errorKeys : List String := errorKinds.map fun kind => "on" ++ kind

/-- Both registries have the property names the constructor gave them. -/
def Seeded (client : AromaClient) : Prop :=
  client.eventListeners.map Prod.fst = eventKeys
    ∧ client.errorHandlers.map Prod.fst = errorKeys

/-- The operations of a run, each with the exception it ended with, if any, oldest
first. -/
def outcomes (throws : Throws) : List Op → World → List (Op × Option JsError)
  | [], _ => []
  | op :: rest, w =>
    (op, (step throws op w).2) :: outcomes throws rest (step throws op w).1

/-- The current channel as the specification describes it, read off the calls made so
far, most recent first: the argument of the most recent `joinTextChannel` that
returned, unless a `leaveTextChannel` that returned came after it, and `null` when there
is none. -/
def specCurrentChannel : List (Op × Option JsError) → Option String
  | [] => none
  | (.joinTextChannel _ channel, none) :: _ => some channel
  | (.leaveTextChannel _, none) :: _ => none
  | _ :: earlier => specCurrentChannel earlier

/-! ## Lemmas on the dispatch loop -/

theorem forEachCall_client (throws : Throws) (argument : Payload) (l : List Callback)
    (w : World) :
    (forEachCall throws argument l w).1.client = w.client
      ∧ (forEachCall throws argument l w).1.wire = w.wire := by
  induction l generalizing w with
  | nil => simp [forEachCall]
  | cons f rest ih =>
    unfold forEachCall
    by_cases h : throws w.calls f argument = true
    · simp [h]
    · simp only [h]
      have := ih { w with calls := w.calls ++ [(f, argument)] }
      simpa using this

theorem forEachCall_all (throws : Throws) (argument : Payload) (l : List Callback)
    (w : World) (quiet : ∀ history, ∀ f ∈ l, throws history f argument = false) :
    forEachCall throws argument l w
      = ({ w with calls := w.calls ++ l.map (fun f => (f, argument)) }, none) := by
  induction l generalizing w with
  | nil => simp [forEachCall]
  | cons f rest ih =>
    unfold forEachCall
    have h : throws w.calls f argument = false := quiet _ f (List.mem_cons_self _ _)
    have := ih { w with calls := w.calls ++ [(f, argument)] }
      (fun history g hg => quiet history g (List.mem_cons_of_mem _ hg))
    simp [h, this]

theorem forEachCall_first_throw (throws : Throws) (argument : Payload)
    (pre : List Callback) (failing : Callback) (post : List Callback) (w : World)
    (quiet : ∀ j (h : j < pre.length),
      throws (w.calls ++ (pre.take j).map (fun f => (f, argument))) (pre.get ⟨j, h⟩) argument
        = false)
    (loud : throws (w.calls ++ pre.map (fun f => (f, argument))) failing argument = true) :
    forEachCall throws argument (pre ++ failing :: post) w
      = ({ w with calls := w.calls ++ (pre ++ [failing]).map (fun f => (f, argument)) },
          some (.thrownBy failing.id)) := by
  induction pre generalizing w with
  | nil =>
    simp only [List.map_nil, List.append_nil] at loud
    simp [forEachCall, loud]
  | cons f rest ih =>
    have h0 : throws w.calls f argument = false := by
      simpa using quiet 0 (by simp)
    have := ih { w with calls := w.calls ++ [(f, argument)] }
      (fun j hj => by simpa using quiet (j + 1) (by simpa using hj))
      (by simpa using loud)
    simp only [List.cons_append, forEachCall, h0]
    simpa using this

/-! ## Lemmas on registries -/

theorem str_append_cancel (a b c : String) (h : a ++ b = a ++ c) : b = c := by
  have := congrArg String.data h
  simp only [String.data_append, List.append_cancel_left_eq] at this
  exact String.ext this

theorem lookup_map_values (g : String → List Callback → List Callback) (r : Registry)
    (key : String) :
    List.lookup key (r.map fun e => (e.1, g e.1 e.2)) = (List.lookup key r).map (g key) := by
  induction r with
  | nil => rfl
  | cons e rest ih =>
    obtain ⟨k, l⟩ := e
    by_cases h : key = k
    · subst h
      simp [List.lookup]
    · have h3 : (key == k) = false := by simpa using h
      simp only [List.map_cons, List.lookup, h3]
      exact ih

theorem Registry.push_keys (r : Registry) (key : String) (f : Callback) :
    (r.push key f).map Prod.fst = r.map Prod.fst := by
  simp [Registry.push, Function.comp_def]

theorem Registry.get_push (r : Registry) (key key2 : String) (f : Callback) :
    (r.push key f).get key2
      = if key2 = key then (r.get key2).map (fun l => l ++ [f]) else r.get key2 := by
  unfold Registry.push Registry.get
  rw [lookup_map_values (fun k l => if k == key then l ++ [f] else l)]
  by_cases h : key2 = key
  · simp [h]
  · simp [h]

theorem Registry.get_isSome (r : Registry) (key : String) :
    (r.get key).isSome = (r.map Prod.fst).contains key := by
  induction r with
  | nil => simp [Registry.get, List.lookup]
  | cons e rest ih =>
    obtain ⟨k, l⟩ := e
    simp only [Registry.get] at ih
    by_cases h : key = k
    · subst h
      simp [Registry.get, List.lookup]
    · have h3 : (key == k) = false := by simpa using h
      simp only [Registry.get, List.lookup, h3, ih]
      simp [h]

/-! ## What each operation leaves alone -/

theorem callEventListeners_client (throws : Throws) (event : Payload) (eventType : JsVal)
    (w : World) :
    (callEventListeners throws event eventType w).1.client = w.client
      ∧ (callEventListeners throws event eventType w).1.wire = w.wire := by
  unfold callEventListeners
  split
  · simp
  · split
    · simp
    · exact forEachCall_client throws event _ w

theorem callErrorHandlers_client (throws : Throws) (error : Payload) (errorType : JsVal)
    (w : World) :
    (callErrorHandlers throws error errorType w).1.client = w.client
      ∧ (callErrorHandlers throws error errorType w).1.wire = w.wire := by
  unfold callErrorHandlers
  split
  · simp
  · split
    · simp
    · exact forEachCall_client throws error _ w

theorem onmessage_client (throws : Throws) (decoded : Option JsVal) (w : World) :
    (onmessage throws decoded w).1.client = w.client
      ∧ (onmessage throws decoded w).1.wire = w.wire := by
  unfold onmessage
  split
  · simp
  · split
    · simp
    · split
      · exact callErrorHandlers_client _ _ _ _
      · exact callEventListeners_client _ _ _ _

theorem onerror_client (throws : Throws) (event : Nat) (w : World) :
    (onerror throws event w).1.client = w.client
      ∧ (onerror throws event w).1.wire = w.wire :=
  callErrorHandlers_client _ _ _ _

theorem onclose_client (throws : Throws) (event : CloseEvent) (w : World) :
    (onclose throws event w).1.client = w.client
      ∧ (onclose throws event w).1.wire = w.wire := by
  unfold onclose
  split
  · exact callEventListeners_client _ _ _ _
  · exact callErrorHandlers_client _ _ _ _

theorem wsSend_client (answer : SendResult) (data : String) (w : World) :
    (wsSend answer data w).1.client = w.client
      ∧ (wsSend answer data w).1.calls = w.calls := by
  unfold wsSend
  cases w.client.ws with
  | none => simp
  | some sock => cases answer <;> simp

theorem joinTextChannel_client (answer : SendResult) (channel : String) (w : World) :
    (joinTextChannel answer channel w).1.client
      = { w.client with
          textChannel := if (joinTextChannel answer channel w).2 = none then some channel
                         else w.client.textChannel } := by
  unfold joinTextChannel wsSend
  cases w.client.ws with
  | none => simp
  | some sock => cases answer <;> simp

theorem leaveTextChannel_client (answer : SendResult) (w : World) :
    (leaveTextChannel answer w).1.client
      = { w.client with
          textChannel := if (leaveTextChannel answer w).2 = none then none
                         else w.client.textChannel } := by
  unfold leaveTextChannel wsSend
  cases w.client.ws with
  | none => simp
  | some sock => cases answer <;> simp

theorem addEventListener_client (eventType : JsVal) (f : Callback) (w : World) :
    (addEventListener eventType f w).1.client = w.client
      ∨ ∃ text, jsToString eventType = some text
          ∧ (w.client.eventListeners.get ("on" ++ text)).isSome
          ∧ (addEventListener eventType f w).1.client
              = { w.client with
                  eventListeners := w.client.eventListeners.push ("on" ++ text) f } := by
  unfold addEventListener
  cases h : jsToString eventType with
  | none => simp
  | some text =>
    cases h2 : w.client.eventListeners.get ("on" ++ text) with
    | none => simp [h2]
    | some l => exact Or.inr ⟨text, rfl, by simp [h2], by simp [h2]⟩

theorem addErrorHandler_client (errorType : JsVal) (f : Callback) (w : World) :
    (addErrorHandler errorType f w).1.client = w.client
      ∨ ∃ text, jsToString errorType = some text
          ∧ (w.client.errorHandlers.get ("on" ++ text)).isSome
          ∧ (addErrorHandler errorType f w).1.client
              = { w.client with
                  errorHandlers := w.client.errorHandlers.push ("on" ++ text) f } := by
  unfold addErrorHandler
  cases h : jsToString errorType with
  | none => simp
  | some text =>
    cases h2 : w.client.errorHandlers.get ("on" ++ text) with
    | none => simp [h2]
    | some l => exact Or.inr ⟨text, rfl, by simp [h2], by simp [h2]⟩

/-- No operation changes the host, the user name, or the property names of the two
registries. -/
theorem step_frame (throws : Throws) (op : Op) (w : World) :
    (step throws op w).1.client.targetHost = w.client.targetHost
      ∧ (step throws op w).1.client.username = w.client.username
      ∧ (step throws op w).1.client.eventListeners.map Prod.fst
          = w.client.eventListeners.map Prod.fst
      ∧ (step throws op w).1.client.errorHandlers.map Prod.fst
          = w.client.errorHandlers.map Prod.fst := by
  cases op with
  | connect urlAccepted => cases urlAccepted <;> simp [step, connect]
  | sendMessage answer message =>
    simp [step, sendMessage, (wsSend_client answer _ w).1]
  | joinTextChannel answer channel => simp [step, joinTextChannel_client]
  | leaveTextChannel answer => simp [step, leaveTextChannel_client]
  | addEventListener eventType f =>
    rcases addEventListener_client eventType f w with h | ⟨text, -, -, h⟩
    · simp [step, h]
    · simp [step, h, Registry.push_keys]
  | addErrorHandler errorType f =>
    rcases addErrorHandler_client errorType f w with h | ⟨text, -, -, h⟩
    · simp [step, h]
    · simp [step, h, Registry.push_keys]
  | onmessage decoded => simp [step, (onmessage_client throws decoded w).1]
  | onerror event => simp [step, (onerror_client throws event w).1]
  | onclose event => simp [step, (onclose_client throws event w).1]

theorem run_append (throws : Throws) (ops : List Op) (op : Op) (w : World) :
    run throws (ops ++ [op]) w = (step throws op (run throws ops w)).1 := by
  simp [run, List.foldl_append]

theorem run_frame (throws : Throws) (ops : List Op) (w : World) :
    (run throws ops w).client.targetHost = w.client.targetHost
      ∧ (run throws ops w).client.username = w.client.username
      ∧ (run throws ops w).client.eventListeners.map Prod.fst
          = w.client.eventListeners.map Prod.fst
      ∧ (run throws ops w).client.errorHandlers.map Prod.fst
          = w.client.errorHandlers.map Prod.fst := by
  induction ops generalizing w with
  | nil => simp [run]
  | cons op rest ih =>
    have h1 := step_frame throws op w
    have h2 := ih (step throws op w).1
    simp only [run, List.foldl_cons] at h2 ⊢
    exact ⟨h2.1.trans h1.1, h2.2.1.trans h1.2.1, h2.2.2.1.trans h1.2.2.1,
      h2.2.2.2.trans h1.2.2.2⟩

theorem run_seeded (throws : Throws) (targetHost username : String) (ops : List Op) :
    Seeded (run throws ops (World.init targetHost username)).client := by
  have h := run_frame throws ops (World.init targetHost username)
  exact ⟨h.2.2.1.trans rfl, h.2.2.2.trans rfl⟩

/-! ## The address and the payloads -/

theorem connectUrl_eq (client : AromaClient) :
    connectUrl client
      = "ws://" ++ client.targetHost ++ ":1989/aromachat/chat?username=" ++ client.username
          ++ "&protocol=0.0.5" := by
  have h1 : ":" ++ (toString AROMA_PORT ++ ("/" ++ (AROMA_PATH ++ "?username=")))
      = ":1989/aromachat/chat?username=" := by decide
  have h2 : "&protocol=" ++ AROMA_PROTOCOL_VERSION = "&protocol=0.0.5" := by decide
  unfold connectUrl
  simp only [String.append_assoc]
  rw [h2, ← h1]
  simp only [String.append_assoc]

theorem stringify_two (k1 v1 k2 v2 : String) :
    JSON.stringify [(k1, v1), (k2, v2)]
      = "\x7b" ++ quoteJSONString k1 ++ ":" ++ quoteJSONString v1 ++ "," ++ quoteJSONString k2
          ++ ":" ++ quoteJSONString v2 ++ "\x7d" := by
  simp [JSON.stringify, JSON.member, String.intercalate, String.intercalate.go,
    String.append_assoc]

theorem stringify_usermessage (message : String) :
    JSON.stringify [("type", AromaEvent.usermessage), ("content", message)]
      = "\x7b\"type\":\"usermessage\",\"content\":" ++ quoteJSONString message ++ "\x7d" := by
  have h1 : "\x7b" ++ (quoteJSONString "type" ++ (":" ++ (quoteJSONString AromaEvent.usermessage
      ++ ("," ++ (quoteJSONString "content" ++ ":")))))
      = "\x7b\"type\":\"usermessage\",\"content\":" := by decide
  rw [stringify_two, ← h1]
  simp only [String.append_assoc]

theorem stringify_join (channel : String) :
    JSON.stringify [("type", AromaEvent.join), ("channel", channel)]
      = "\x7b\"type\":\"join\",\"channel\":" ++ quoteJSONString channel ++ "\x7d" := by
  have h1 : "\x7b" ++ (quoteJSONString "type" ++ (":" ++ (quoteJSONString AromaEvent.join
      ++ ("," ++ (quoteJSONString "channel" ++ ":")))))
      = "\x7b\"type\":\"join\",\"channel\":" := by decide
  rw [stringify_two, ← h1]
  simp only [String.append_assoc]

theorem stringify_leave :
    JSON.stringify [("type", AromaEvent.leave)] = "\x7b\"type\":\"leave\"\x7d" := by
  decide

theorem stringify_join_ne_leave (channel : String) :
    JSON.stringify [("type", AromaEvent.join), ("channel", channel)]
      ≠ "\x7b\"type\":\"leave\"\x7d" := by
  rw [stringify_join]
  intro h
  have := congrArg String.data h
  simp [String.data_append] at this

/-- Claim C6: the address `connect` opens is, in every state of a client built with
`targetHost` and `username`, the text `ws://`, the host, `:1989/aromachat/chat?username=`,
the user name and `&protocol=0.0.5`, with host and user name copied as they are; it is
not the address with the secure port 1990 in that place. -/
theorem C6_connect_address (throws : Throws) (targetHost username : String)
    (ops : List Op) :
    (connect true (run throws ops (World.init targetHost username))).1.client.ws
        = some { url := "ws://" ++ targetHost ++ ":1989/aromachat/chat?username=" ++ username
                          ++ "&protocol=0.0.5" }
      ∧ (connect true (run throws ops (World.init targetHost username))).2 = none
      ∧ connectUrl (run throws ops (World.init targetHost username)).client
          ≠ "ws://" ++ targetHost ++ ":" ++ toString AROMA_SECURE_PORT
              ++ "/aromachat/chat?username=" ++ username ++ "&protocol=0.0.5" := by
  have hf := run_frame throws ops (World.init targetHost username)
  have hh : (run throws ops (World.init targetHost username)).client.targetHost = targetHost :=
    hf.1
  have hu : (run throws ops (World.init targetHost username)).client.username = username :=
    hf.2.1
  refine ⟨by simp [connect, connectUrl_eq, hh, hu], by simp [connect], ?_⟩
  rw [connectUrl_eq, hh, hu]
  intro hc
  have h3 : (toString AROMA_SECURE_PORT).data = ['1', '9', '9', '0'] := by decide
  have := congrArg String.data hc
  simp only [String.data_append, List.append_assoc, List.append_cancel_left_eq, h3] at this
  simp at this

/-- Claim C4: on a client with a socket that takes the data, `sendMessage(message)` hands
exactly one payload to the socket, the serialisation of the object with the two
properties `type` = `usermessage` and `content` = `message` in that order; for `hello`
it is the text with `"type":"usermessage","content":"hello"` between braces. The client
(so the channel and both registries) and the invocation list stay as they were. -/
theorem C4_sendMessage_payload (message : String) (w : World) (socket : WebSocket)
    (connected : w.client.ws = some socket) :
    sendMessage .accepted message w
        = ({ w with wire := w.wire
              ++ [JSON.stringify [("type", "usermessage"), ("content", message)]] }, none)
      ∧ JSON.stringify [("type", "usermessage"), ("content", message)]
          = "\x7b\"type\":\"usermessage\",\"content\":" ++ quoteJSONString message ++ "\x7d"
      ∧ JSON.stringify [("type", "usermessage"), ("content", "hello")]
          = "\x7b\"type\":\"usermessage\",\"content\":\"hello\"\x7d"
      ∧ (sendMessage .accepted message w).1.client.textChannel = w.client.textChannel
      ∧ (sendMessage .accepted message w).1.client.eventListeners = w.client.eventListeners
      ∧ (sendMessage .accepted message w).1.client.errorHandlers = w.client.errorHandlers := by
  have h : sendMessage .accepted message w
      = ({ w with wire := w.wire
            ++ [JSON.stringify [("type", "usermessage"), ("content", message)]] }, none) := by
    simp [sendMessage, wsSend, connected, AromaEvent]
  refine ⟨h, stringify_usermessage message, by decide, ?_, ?_, ?_⟩ <;> rw [h]

theorem C4_sendMessage_payload_witness :
    (connect true (World.init "localhost" "ada")).1.client.ws
        = some { url := connectUrl (AromaClient.new "localhost" "ada") }
      ∧ (sendMessage .accepted "hello" (connect true (World.init "localhost" "ada")).1).1.wire
          = ["\x7b\"type\":\"usermessage\",\"content\":\"hello\"\x7d"] := by
  have h := C4_sendMessage_payload "hello" (connect true (World.init "localhost" "ada")).1
    { url := connectUrl (AromaClient.new "localhost" "ada") } rfl
  refine ⟨rfl, ?_⟩
  rw [h.1, h.2.2.1]
  rfl

/-- Claim C5: on a client with a socket that takes the data, whatever the current
channel was, `joinTextChannel(channel)` hands exactly one payload to the socket, the
serialisation of the object with `type` = `join` and `channel` = `channel`, which is not
the `leave` payload, and sets the current channel to `channel`; `leaveTextChannel()`
hands over exactly the payload with `"type":"leave"` between braces and sets the current
channel to `null`. -/
theorem C5_join_leave_payloads (channel : String) (w : World) (socket : WebSocket)
    (connected : w.client.ws = some socket) :
    joinTextChannel .accepted channel w
        = ({ client := { w.client with textChannel := some channel },
             calls := w.calls,
             wire := w.wire ++ [JSON.stringify [("type", "join"), ("channel", channel)]] },
           none)
      ∧ JSON.stringify [("type", "join"), ("channel", channel)]
          = "\x7b\"type\":\"join\",\"channel\":" ++ quoteJSONString channel ++ "\x7d"
      ∧ JSON.stringify [("type", "join"), ("channel", channel)] ≠ "\x7b\"type\":\"leave\"\x7d"
      ∧ JSON.stringify [("type", "join"), ("channel", "general")]
          = "\x7b\"type\":\"join\",\"channel\":\"general\"\x7d"
      ∧ leaveTextChannel .accepted w
          = ({ client := { w.client with textChannel := none },
               calls := w.calls,
               wire := w.wire ++ ["\x7b\"type\":\"leave\"\x7d"] },
             none) := by
  refine ⟨?_, stringify_join channel, stringify_join_ne_leave channel, by decide, ?_⟩
  · simp [joinTextChannel, wsSend, connected, AromaEvent]
  · simp [leaveTextChannel, wsSend, connected, stringify_leave]

theorem C5_join_leave_payloads_witness :
    (connect true (World.init "localhost" "ada")).1.client.ws
        = some { url := connectUrl (AromaClient.new "localhost" "ada") }
      ∧ (joinTextChannel .accepted "general"
            (connect true (World.init "localhost" "ada")).1).1.client.textChannel
          = some "general" := by
  have h := C5_join_leave_payloads "general" (connect true (World.init "localhost" "ada")).1
    { url := connectUrl (AromaClient.new "localhost" "ada") } rfl
  refine ⟨rfl, ?_⟩
  rw [h.1]

/-! ## The registries -/

theorem mem_eventKeys (kind : String) : ("on" ++ kind) ∈ eventKeys ↔ kind ∈ eventKinds := by
  unfold eventKeys
  constructor
  · intro h
    obtain ⟨k, hk, he⟩ := List.mem_map.mp h
    rw [← str_append_cancel _ _ _ he]
    exact hk
  · intro h
    exact List.mem_map.mpr ⟨kind, h, rfl⟩

theorem mem_errorKeys (kind : String) : ("on" ++ kind) ∈ errorKeys ↔ kind ∈ errorKinds := by
  unfold errorKeys
  constructor
  · intro h
    obtain ⟨k, hk, he⟩ := List.mem_map.mp h
    rw [← str_append_cancel _ _ _ he]
    exact hk
  · intro h
    exact List.mem_map.mpr ⟨kind, h, rfl⟩

theorem Seeded.event_isSome {client : AromaClient} (h : Seeded client) (kind : String) :
    (client.eventListeners.get ("on" ++ kind)).isSome = true ↔ kind ∈ eventKinds := by
  rw [Registry.get_isSome, h.1, ← mem_eventKeys]
  simp

theorem Seeded.error_isSome {client : AromaClient} (h : Seeded client) (kind : String) :
    (client.errorHandlers.get ("on" ++ kind)).isSome = true ↔ kind ∈ errorKinds := by
  rw [Registry.get_isSome, h.2, ← mem_errorKeys]
  simp

theorem addEventListener_str (kind : String) (f : Callback) (w : World)
    (h : Seeded w.client) :
    addEventListener (.str kind) f w
      = if kind ∈ eventKinds then
          ({ w with client := { w.client with
              eventListeners := w.client.eventListeners.push ("on" ++ kind) f } }, none)
        else (w, some .typeError) := by
  have hs := h.event_isSome kind
  unfold addEventListener
  simp only [jsToString]
  cases hg : w.client.eventListeners.get ("on" ++ kind) with
  | none =>
    have : kind ∉ eventKinds := fun hm => by simpa [hg] using hs.mpr hm
    simp [this]
  | some l =>
    have : kind ∈ eventKinds := hs.mp (by simp [hg])
    simp [this]

theorem addErrorHandler_str (kind : String) (f : Callback) (w : World)
    (h : Seeded w.client) :
    addErrorHandler (.str kind) f w
      = if kind ∈ errorKinds then
          ({ w with client := { w.client with
              errorHandlers := w.client.errorHandlers.push ("on" ++ kind) f } }, none)
        else (w, some .typeError) := by
  have hs := h.error_isSome kind
  unfold addErrorHandler
  simp only [jsToString]
  cases hg : w.client.errorHandlers.get ("on" ++ kind) with
  | none =>
    have : kind ∉ errorKinds := fun hm => by simpa [hg] using hs.mpr hm
    simp [this]
  | some l =>
    have : kind ∈ errorKinds := hs.mp (by simp [hg])
    simp [this]

/-- Claim C7: in every state a client can reach, `addEventListener(kind, f)` with a
string `kind` succeeds and appends exactly when `kind` is one of the ten event kinds,
and otherwise throws `TypeError` and leaves the whole world, both registries included, as
it was; `addErrorHandler(kind, f)` does the same with the four error kinds. -/
theorem C7_unknown_kind_rejected (throws : Throws) (targetHost username : String)
    (ops : List Op) (kind : String) (f : Callback) :
    addEventListener (.str kind) f (run throws ops (World.init targetHost username))
        = (if kind ∈ eventKinds then
            ({ run throws ops (World.init targetHost username) with
                client := { (run throws ops (World.init targetHost username)).client with
                  eventListeners :=
                    (run throws ops (World.init targetHost username)).client.eventListeners.push
                      ("on" ++ kind) f } }, none)
          else (run throws ops (World.init targetHost username), some .typeError))
      ∧ addErrorHandler (.str kind) f (run throws ops (World.init targetHost username))
        = (if kind ∈ errorKinds then
            ({ run throws ops (World.init targetHost username) with
                client := { (run throws ops (World.init targetHost username)).client with
                  errorHandlers :=
                    (run throws ops (World.init targetHost username)).client.errorHandlers.push
                      ("on" ++ kind) f } }, none)
          else (run throws ops (World.init targetHost username), some .typeError)) :=
  ⟨addEventListener_str kind f _ (run_seeded throws targetHost username ops),
   addErrorHandler_str kind f _ (run_seeded throws targetHost username ops)⟩

theorem step_registries_other (throws : Throws) (op : Op) (w : World) :
    ((∀ t f, op ≠ .addEventListener t f) →
        (step throws op w).1.client.eventListeners = w.client.eventListeners)
      ∧ ((∀ t f, op ≠ .addErrorHandler t f) →
        (step throws op w).1.client.errorHandlers = w.client.errorHandlers) := by
  cases op with
  | connect urlAccepted => cases urlAccepted <;> simp [step, connect]
  | sendMessage answer message => simp [step, sendMessage, (wsSend_client answer _ w).1]
  | joinTextChannel answer channel => simp [step, joinTextChannel_client]
  | leaveTextChannel answer => simp [step, leaveTextChannel_client]
  | addEventListener eventType f =>
    rcases addEventListener_client eventType f w with h | ⟨text, -, -, h⟩
    · simp [step, h]
    · simp [step, h]
  | addErrorHandler errorType f =>
    rcases addErrorHandler_client errorType f w with h | ⟨text, -, -, h⟩
    · simp [step, h]
    · simp [step, h]
  | onmessage decoded => simp [step, (onmessage_client throws decoded w).1]
  | onerror event => simp [step, (onerror_client throws event w).1]
  | onclose event => simp [step, (onclose_client throws event w).1]

theorem addEventListener_get (eventType : JsVal) (f : Callback) (w : World)
    (key : String) :
    (addEventListener eventType f w).1.client.eventListeners.get key
      = if some key = (jsToString eventType).map (fun text => "on" ++ text) then
          (w.client.eventListeners.get key).map (fun l => l ++ [f])
        else w.client.eventListeners.get key := by
  unfold addEventListener
  cases h : jsToString eventType with
  | none => simp
  | some text =>
    cases h2 : w.client.eventListeners.get ("on" ++ text) with
    | none =>
      by_cases hk : key = "on" ++ text
      · simp [hk, h2]
      · simp [hk, h2]
    | some l =>
      simp [h2, Registry.get_push]

theorem addErrorHandler_get (errorType : JsVal) (f : Callback) (w : World)
    (key : String) :
    (addErrorHandler errorType f w).1.client.errorHandlers.get key
      = if some key = (jsToString errorType).map (fun text => "on" ++ text) then
          (w.client.errorHandlers.get key).map (fun l => l ++ [f])
        else w.client.errorHandlers.get key := by
  unfold addErrorHandler
  cases h : jsToString errorType with
  | none => simp
  | some text =>
    cases h2 : w.client.errorHandlers.get ("on" ++ text) with
    | none =>
      by_cases hk : key = "on" ++ text
      · simp [hk, h2]
      · simp [hk, h2]
    | some l =>
      simp [h2, Registry.get_push]

theorem step_registries_grow (throws : Throws) (op : Op) (w : World) (key : String) :
    (∃ added, (step throws op w).1.client.eventListeners.get key
        = (w.client.eventListeners.get key).map (fun l => l ++ added))
      ∧ (∃ added, (step throws op w).1.client.errorHandlers.get key
        = (w.client.errorHandlers.get key).map (fun l => l ++ added)) := by
  have same : ∀ (r : Registry), r.get key = (r.get key).map (fun l => l ++ []) := by
    intro r; simp
  by_cases h1 : ∃ t f, op = .addEventListener t f
  · obtain ⟨t, f, rfl⟩ := h1
    refine ⟨?_, [], ?_⟩
    · simp only [step, addEventListener_get]
      split
      · exact ⟨[f], rfl⟩
      · exact ⟨[], same _⟩
    · rw [(step_registries_other throws _ w).2 (by simp)]
      exact same _
  · by_cases h2 : ∃ t f, op = .addErrorHandler t f
    · obtain ⟨t, f, rfl⟩ := h2
      refine ⟨⟨[], ?_⟩, ?_⟩
      · rw [(step_registries_other throws _ w).1 (by simp)]
        exact same _
      · simp only [step, addErrorHandler_get]
        split
        · exact ⟨[f], rfl⟩
        · exact ⟨[], same _⟩
    · push_neg at h1 h2
      refine ⟨⟨[], ?_⟩, [], ?_⟩
      · rw [(step_registries_other throws _ w).1 h1]
        exact same _
      · rw [(step_registries_other throws _ w).2 h2]
        exact same _

/-- Claim C8: the registries only grow at the end. At construction each has one empty
sequence per kind. In every state a client can reach, whatever the next operation,
(1) the property names of each registry are the ten, respectively four, names given at
construction, before and after the operation; (2) under every name, the sequence after
the operation is the sequence before it followed by some callbacks; (3) an
`addEventListener(t, f)` leaves the error registry alone and changes the event registry
only under the name `on` + `t`, where `f` is put at the end, an `addErrorHandler(t, f)`
does the same with the roles swapped, and every other operation leaves both alone. -/
theorem C8_registries_append_only (throws : Throws) (targetHost username : String)
    (ops : List Op) (op : Op) :
    ((World.init targetHost username).client.eventListeners
          = eventKinds.map (fun kind => ("on" ++ kind, []))
        ∧ (World.init targetHost username).client.errorHandlers
          = errorKinds.map (fun kind => ("on" ++ kind, [])))
      ∧ (Seeded (run throws ops (World.init targetHost username)).client
        ∧ Seeded (step throws op (run throws ops (World.init targetHost username))).1.client)
      ∧ (∀ key,
          (∃ added,
            (step throws op (run throws ops (World.init targetHost username))).1.client.eventListeners.get key
              = ((run throws ops (World.init targetHost username)).client.eventListeners.get key).map
                  (fun l => l ++ added))
          ∧ (∃ added,
            (step throws op (run throws ops (World.init targetHost username))).1.client.errorHandlers.get key
              = ((run throws ops (World.init targetHost username)).client.errorHandlers.get key).map
                  (fun l => l ++ added)))
      ∧ (match op with
          | .addEventListener t f =>
            (step throws op (run throws ops (World.init targetHost username))).1.client.errorHandlers
                = (run throws ops (World.init targetHost username)).client.errorHandlers
              ∧ ∀ key,
                (step throws op (run throws ops (World.init targetHost username))).1.client.eventListeners.get key
                  = if some key = (jsToString t).map (fun text => "on" ++ text) then
                      ((run throws ops (World.init targetHost username)).client.eventListeners.get key).map
                        (fun l => l ++ [f])
                    else (run throws ops (World.init targetHost username)).client.eventListeners.get key
          | .addErrorHandler t f =>
            (step throws op (run throws ops (World.init targetHost username))).1.client.eventListeners
                = (run throws ops (World.init targetHost username)).client.eventListeners
              ∧ ∀ key,
                (step throws op (run throws ops (World.init targetHost username))).1.client.errorHandlers.get key
                  = if some key = (jsToString t).map (fun text => "on" ++ text) then
                      ((run throws ops (World.init targetHost username)).client.errorHandlers.get key).map
                        (fun l => l ++ [f])
                    else (run throws ops (World.init targetHost username)).client.errorHandlers.get key
          | _ =>
            (step throws op (run throws ops (World.init targetHost username))).1.client.eventListeners
                = (run throws ops (World.init targetHost username)).client.eventListeners
              ∧ (step throws op (run throws ops (World.init targetHost username))).1.client.errorHandlers
                = (run throws ops (World.init targetHost username)).client.errorHandlers) := by
  refine ⟨⟨rfl, rfl⟩, ⟨run_seeded throws targetHost username ops, ?_⟩,
    fun key => step_registries_grow throws op _ key, ?_⟩
  · rw [← run_append]
    exact run_seeded throws targetHost username (ops ++ [op])
  · have h := step_registries_other throws op (run throws ops (World.init targetHost username))
    cases op with
    | addEventListener t f =>
      exact ⟨h.2 (by simp), fun key => addEventListener_get t f _ key⟩
    | addErrorHandler t f =>
      exact ⟨h.1 (by simp), fun key => addErrorHandler_get t f _ key⟩
    | connect _ => exact ⟨h.1 (by simp), h.2 (by simp)⟩
    | sendMessage _ _ => exact ⟨h.1 (by simp), h.2 (by simp)⟩
    | joinTextChannel _ _ => exact ⟨h.1 (by simp), h.2 (by simp)⟩
    | leaveTextChannel _ => exact ⟨h.1 (by simp), h.2 (by simp)⟩
    | onmessage _ => exact ⟨h.1 (by simp), h.2 (by simp)⟩
    | onerror _ => exact ⟨h.1 (by simp), h.2 (by simp)⟩
    | onclose _ => exact ⟨h.1 (by simp), h.2 (by simp)⟩


/-! ## Dispatch from the socket callbacks -/

theorem guard_never (type : JsVal) :
    jsIn (toString (!jsTruthy type)) AromaEvent.keys = false := by
  cases jsTruthy type <;> decide

theorem onmessage_dispatch (throws : Throws) (packet type : JsVal) (w : World)
    (h : jsGet packet "type" = some type) :
    onmessage throws (some packet) w = callEventListeners throws (.value packet) type w := by
  simp [onmessage, h, guard_never]

theorem onmessage_unknown_type (throws : Throws) (fields : List (String × JsVal))
    (kind : String) (w : World) (seeded : Seeded w.client)
    (typed : getOwn "type" fields = .str kind) (unknown : kind ∉ eventKinds) :
    onmessage throws (some (.obj fields)) w = (w, some .typeError) := by
  rw [onmessage_dispatch throws (.obj fields) (.str kind) w (by simp [jsGet, typed])]
  have h := seeded.event_isSome kind
  cases hg : w.client.eventListeners.get ("on" ++ kind) with
  | none => simp [callEventListeners, jsToString, hg]
  | some l => exact absurd (h.mp (by simp [hg])) unknown

theorem onmessage_missing_type (throws : Throws) (fields : List (String × JsVal))
    (w : World) (seeded : Seeded w.client) (untyped : getOwn "type" fields = .undefined) :
    onmessage throws (some (.obj fields)) w = (w, some .typeError) := by
  rw [onmessage_dispatch throws (.obj fields) .undefined w (by simp [jsGet, untyped])]
  have h := seeded.event_isSome "undefined"
  have e : "on" ++ "undefined" = "onundefined" := by decide
  rw [e] at h
  cases hg : w.client.eventListeners.get "onundefined" with
  | none => simp [callEventListeners, jsToString, hg]
  | some l => exact absurd (h.mp (by simp [hg])) (by decide)

/-- Claim C1, the code at a failing input: with a handler registered for `invalidtype`,
the decoded message with `type` = `bogus` does not reach that handler. The guard
`!packet.type in AromaEvent` is false, the message is dispatched as an event, the
registry has no property `onbogus`, and the callback throws `TypeError` with no
callback called. -/
theorem C1_unknown_type_throws :
    (addErrorHandler (.str "invalidtype") ⟨1⟩ (World.init "localhost" "ada")).1.client.errorHandlers.get
        "oninvalidtype" = some [⟨1⟩]
      ∧ jsIn (toString (!jsTruthy (.str "bogus"))) AromaEvent.keys = false
      ∧ onmessage (fun _ _ _ => false) (some (.obj [("type", .str "bogus")]))
          (addErrorHandler (.str "invalidtype") ⟨1⟩ (World.init "localhost" "ada")).1
        = ({ (addErrorHandler (.str "invalidtype") ⟨1⟩ (World.init "localhost" "ada")).1 with
              calls := [] }, some .typeError) := by
  refine ⟨by decide, by decide, rfl⟩

/-- Claim C10: when, in a dispatch over the callbacks `pre ++ failing :: post` registered
under a kind, the callbacks of `pre` return and `failing` throws, then exactly the
callbacks of `pre` and then `failing` are called, once each, in that order, with the
payload; none of `post` is called; the dispatch ends with the exception of `failing`;
and the client, so both registries, is as before. This holds for `callEventListeners`
and for `callErrorHandlers`, and each socket callback returns what its dispatch returns,
the exception included. -/
theorem C10_first_failure_aborts (throws : Throws) (payload : Payload) (kind : String)
    (pre : List Callback) (failing : Callback) (post : List Callback) (w : World)
    (quiet : ∀ j (h : j < pre.length),
      throws (w.calls ++ (pre.take j).map (fun f => (f, payload))) (pre.get ⟨j, h⟩) payload
        = false)
    (loud : throws (w.calls ++ pre.map (fun f => (f, payload))) failing payload = true) :
    (w.client.eventListeners.get ("on" ++ kind) = some (pre ++ failing :: post) →
        callEventListeners throws payload (.str kind) w
          = ({ w with calls := w.calls ++ (pre ++ [failing]).map (fun f => (f, payload)) },
              some (.thrownBy failing.id)))
      ∧ (w.client.errorHandlers.get ("on" ++ kind) = some (pre ++ failing :: post) →
        callErrorHandlers throws payload (.str kind) w
          = ({ w with calls := w.calls ++ (pre ++ [failing]).map (fun f => (f, payload)) },
              some (.thrownBy failing.id)))
      ∧ (∀ packet type, jsGet packet "type" = some type →
          onmessage throws (some packet) w
            = callEventListeners throws (.value packet) type w)
      ∧ (∀ event, onerror throws event w
            = callErrorHandlers throws (.error event) (.str "wserror") w)
      ∧ (∀ event, onclose throws event w
            = if event.code = 1000 then
                callEventListeners throws (.close event) (.str "logout") w
              else callErrorHandlers throws (.close event) (.str "disconnect") w) := by
  refine ⟨?_, ?_, fun packet type h => onmessage_dispatch throws packet type w h,
    fun event => rfl, fun event => rfl⟩
  · intro h
    simp only [callEventListeners, jsToString, h]
    exact forEachCall_first_throw throws payload pre failing post w quiet loud
  · intro h
    simp only [callErrorHandlers, jsToString, h]
    exact forEachCall_first_throw throws payload pre failing post w quiet loud

theorem C10_first_failure_aborts_witness :
    (run (fun _ f _ => f.id == 2)
        [.addEventListener (.str "login") ⟨1⟩, .addEventListener (.str "login") ⟨2⟩,
         .addEventListener (.str "login") ⟨3⟩]
        (World.init "localhost" "ada")).client.eventListeners.get ("on" ++ "login")
        = some ([⟨1⟩] ++ ⟨2⟩ :: [⟨3⟩])
      ∧ callEventListeners (fun _ f _ => f.id == 2) (.value (.obj [("type", .str "login")]))
          (.str "login")
          (run (fun _ f _ => f.id == 2)
            [.addEventListener (.str "login") ⟨1⟩, .addEventListener (.str "login") ⟨2⟩,
             .addEventListener (.str "login") ⟨3⟩]
            (World.init "localhost" "ada"))
        = ({ (run (fun _ f _ => f.id == 2)
                [.addEventListener (.str "login") ⟨1⟩, .addEventListener (.str "login") ⟨2⟩,
                 .addEventListener (.str "login") ⟨3⟩]
                (World.init "localhost" "ada")) with
              calls := [] ++ ([Callback.mk 1] ++ [Callback.mk 2]).map
                (fun f => (f, Payload.value (.obj [("type", .str "login")]))) },
            some (.thrownBy 2)) :=
  ⟨by decide,
   (C10_first_failure_aborts (fun _ f _ => f.id == 2)
      (.value (.obj [("type", .str "login")])) "login" [⟨1⟩] ⟨2⟩ [⟨3⟩]
      (run (fun _ f _ => f.id == 2)
        [.addEventListener (.str "login") ⟨1⟩, .addEventListener (.str "login") ⟨2⟩,
         .addEventListener (.str "login") ⟨3⟩]
        (World.init "localhost" "ada"))
      (fun j h => by
        have : j = 0 := by simpa using h
        subst this
        rfl)
      rfl).1 (by decide)⟩

/-! ## Close events -/

/-- Claim C2, as stated, fails when a listener throws: with two `logout` listeners of
which the first throws, a close with code 1000 calls the first only, and the second,
though registered, is not called. -/
theorem C2_second_logout_listener_not_invoked :
    (run (fun _ f _ => f.id == 1)
        [.addEventListener (.str "logout") ⟨1⟩, .addEventListener (.str "logout") ⟨2⟩]
        (World.init "localhost" "ada")).client.eventListeners.get "onlogout"
        = some [⟨1⟩, ⟨2⟩]
      ∧ (onclose (fun _ f _ => f.id == 1) ⟨1000, "", true⟩
          (run (fun _ f _ => f.id == 1)
            [.addEventListener (.str "logout") ⟨1⟩, .addEventListener (.str "logout") ⟨2⟩]
            (World.init "localhost" "ada"))).1.calls
        = [(⟨1⟩, .close ⟨1000, "", true⟩)]
      ∧ (onclose (fun _ f _ => f.id == 1) ⟨1000, "", true⟩
          (run (fun _ f _ => f.id == 1)
            [.addEventListener (.str "logout") ⟨1⟩, .addEventListener (.str "logout") ⟨2⟩]
            (World.init "localhost" "ada"))).2
        = some (.thrownBy 1)
      ∧ ∀ call ∈ (onclose (fun _ f _ => f.id == 1) ⟨1000, "", true⟩
          (run (fun _ f _ => f.id == 1)
            [.addEventListener (.str "logout") ⟨1⟩, .addEventListener (.str "logout") ⟨2⟩]
            (World.init "localhost" "ada"))).1.calls, call.1 ≠ ⟨2⟩ := by
  refine ⟨by decide, rfl, by decide, ?_⟩
  intro call h
  have e : (onclose (fun _ f _ => f.id == 1) ⟨1000, "", true⟩
      (run (fun _ f _ => f.id == 1)
        [.addEventListener (.str "logout") ⟨1⟩, .addEventListener (.str "logout") ⟨2⟩]
        (World.init "localhost" "ada"))).1.calls
      = [(⟨1⟩, .close ⟨1000, "", true⟩)] := rfl
  rw [e, List.mem_singleton] at h
  rw [h]
  decide

theorem forEachCall_quiet (throws : Throws) (argument : Payload) (l : List Callback)
    (w : World)
    (quiet : ∀ j (h : j < l.length),
      throws (w.calls ++ (l.take j).map (fun f => (f, argument))) (l.get ⟨j, h⟩) argument
        = false) :
    forEachCall throws argument l w
      = ({ w with calls := w.calls ++ l.map (fun f => (f, argument)) }, none) := by
  induction l generalizing w with
  | nil => simp [forEachCall]
  | cons f rest ih =>
    have h0 : throws w.calls f argument = false := by
      simpa using quiet 0 (by simp)
    have := ih { w with calls := w.calls ++ [(f, argument)] }
      (fun j hj => by simpa using quiet (j + 1) (by simpa using hj))
    simp only [forEachCall, h0]
    simpa using this

theorem quiet_or_first_throw (throws : Throws) (argument : Payload) (l : List Callback)
    (history : List Invocation) :
    (∀ j (h : j < l.length),
        throws (history ++ (l.take j).map (fun f => (f, argument))) (l.get ⟨j, h⟩) argument
          = false)
      ∨ ∃ pre failing post, l = pre ++ failing :: post
          ∧ (∀ j (h : j < pre.length),
              throws (history ++ (pre.take j).map (fun f => (f, argument))) (pre.get ⟨j, h⟩)
                argument = false)
          ∧ throws (history ++ pre.map (fun f => (f, argument))) failing argument = true := by
  induction l generalizing history with
  | nil => exact Or.inl (fun j h => absurd h (by simp))
  | cons f rest ih =>
    by_cases h0 : throws history f argument = true
    · exact Or.inr ⟨[], f, rest, rfl, fun j h => absurd h (by simp), by simpa using h0⟩
    · have h0f : throws history f argument = false := by simpa using h0
      rcases ih (history ++ [(f, argument)]) with hq | ⟨pre, failing, post, hl, hq, hloud⟩
      · refine Or.inl (fun j h => ?_)
        cases j with
        | zero => simpa using h0f
        | succ k => simpa using hq k (by simpa using h)
      · refine Or.inr ⟨f :: pre, failing, post, by simp [hl], fun j h => ?_, by simpa using hloud⟩
        cases j with
        | zero => simpa using h0f
        | succ k => simpa using hq k (by simpa using h)

/-- Claim C2, amended: in every state a client can reach both the `logout` listeners and
the `disconnect` handlers exist, and a close event goes to exactly one of the two
sequences, the `logout` event listeners when its code is 1000 and the `disconnect` error
handlers otherwise. (1) When none of the callbacks of that sequence throws at its turn,
the invocations made are exactly the callbacks of that sequence, in registration order,
each once with the raw close event, and the callback returns. (2) When the callbacks
`pre` return and the next one, `failing`, throws, the invocations made are exactly `pre`
and then `failing`, and the callback ends with the exception of `failing`. (3) One of
the two cases always applies. In both the rest of the world is unchanged, so no callback
is called on account of the other registry. -/
theorem C2_close_goes_to_one_registry (throws : Throws) (targetHost username : String)
    (ops : List Op) (event : CloseEvent) :
    ((run throws ops (World.init targetHost username)).client.eventListeners.get
          "onlogout").isSome = true
      ∧ ((run throws ops (World.init targetHost username)).client.errorHandlers.get
          "ondisconnect").isSome = true
      ∧ ∀ logoutListeners disconnectHandlers,
        (run throws ops (World.init targetHost username)).client.eventListeners.get "onlogout"
            = some logoutListeners →
        (run throws ops (World.init targetHost username)).client.errorHandlers.get
            "ondisconnect" = some disconnectHandlers →
        ((∀ j (h : j < (if event.code = 1000 then logoutListeners
                else disconnectHandlers).length),
            throws ((run throws ops (World.init targetHost username)).calls
                ++ ((if event.code = 1000 then logoutListeners else disconnectHandlers).take
                    j).map (fun f => (f, Payload.close event)))
              ((if event.code = 1000 then logoutListeners else disconnectHandlers).get ⟨j, h⟩)
              (.close event) = false) →
          onclose throws event (run throws ops (World.init targetHost username))
            = ({ run throws ops (World.init targetHost username) with
                  calls := (run throws ops (World.init targetHost username)).calls
                    ++ (if event.code = 1000 then logoutListeners
                        else disconnectHandlers).map (fun f => (f, Payload.close event)) },
                none))
        ∧ (∀ pre failing post,
            (if event.code = 1000 then logoutListeners else disconnectHandlers)
                = pre ++ failing :: post →
            (∀ j (h : j < pre.length),
              throws ((run throws ops (World.init targetHost username)).calls
                  ++ (pre.take j).map (fun f => (f, Payload.close event)))
                (pre.get ⟨j, h⟩) (.close event) = false) →
            throws ((run throws ops (World.init targetHost username)).calls
                ++ pre.map (fun f => (f, Payload.close event))) failing (.close event)
              = true →
            onclose throws event (run throws ops (World.init targetHost username))
              = ({ run throws ops (World.init targetHost username) with
                    calls := (run throws ops (World.init targetHost username)).calls
                      ++ (pre ++ [failing]).map (fun f => (f, Payload.close event)) },
                  some (.thrownBy failing.id)))
        ∧ ((∀ j (h : j < (if event.code = 1000 then logoutListeners
                else disconnectHandlers).length),
            throws ((run throws ops (World.init targetHost username)).calls
                ++ ((if event.code = 1000 then logoutListeners else disconnectHandlers).take
                    j).map (fun f => (f, Payload.close event)))
              ((if event.code = 1000 then logoutListeners else disconnectHandlers).get ⟨j, h⟩)
              (.close event) = false)
          ∨ ∃ pre failing post,
              (if event.code = 1000 then logoutListeners else disconnectHandlers)
                  = pre ++ failing :: post
                ∧ (∀ j (h : j < pre.length),
                    throws ((run throws ops (World.init targetHost username)).calls
                        ++ (pre.take j).map (fun f => (f, Payload.close event)))
                      (pre.get ⟨j, h⟩) (.close event) = false)
                ∧ throws ((run throws ops (World.init targetHost username)).calls
                      ++ pre.map (fun f => (f, Payload.close event))) failing (.close event)
                    = true) := by
  have seeded := run_seeded throws targetHost username ops
  have e1 : "on" ++ "logout" = "onlogout" := by decide
  have e2 : "on" ++ "disconnect" = "ondisconnect" := by decide
  refine ⟨e1 ▸ (seeded.event_isSome "logout").mpr (by decide),
    e2 ▸ (seeded.error_isSome "disconnect").mpr (by decide), ?_⟩
  intro logoutListeners disconnectHandlers hl hd
  have hdispatch : onclose throws event (run throws ops (World.init targetHost username))
      = forEachCall throws (.close event)
          (if event.code = 1000 then logoutListeners else disconnectHandlers)
          (run throws ops (World.init targetHost username)) := by
    by_cases hc : event.code = 1000
    · simp [onclose, hc, callEventListeners, jsToString, AromaEvent, e1, hl]
    · simp [onclose, hc, callErrorHandlers, jsToString, AromaError, e2, hd]
  refine ⟨fun quiet => ?_, fun pre failing post hsplit quiet loud => ?_,
    quiet_or_first_throw throws (.close event) _ _⟩
  · rw [hdispatch]
    exact forEachCall_quiet throws (.close event) _ _ quiet
  · rw [hdispatch, hsplit]
    exact forEachCall_first_throw throws (.close event) pre failing post _ quiet loud

theorem C2_close_goes_to_one_registry_witness :
    onclose (fun _ _ _ => false) ⟨1000, "", true⟩
        (run (fun _ _ _ => false)
          [.addEventListener (.str "logout") ⟨1⟩, .addEventListener (.str "logout") ⟨2⟩,
           .addErrorHandler (.str "disconnect") ⟨3⟩, .addErrorHandler (.str "disconnect") ⟨4⟩]
          (World.init "localhost" "ada"))
        = ({ run (fun _ _ _ => false)
              [.addEventListener (.str "logout") ⟨1⟩, .addEventListener (.str "logout") ⟨2⟩,
               .addErrorHandler (.str "disconnect") ⟨3⟩,
               .addErrorHandler (.str "disconnect") ⟨4⟩]
              (World.init "localhost" "ada") with
            calls := [(⟨1⟩, .close ⟨1000, "", true⟩), (⟨2⟩, .close ⟨1000, "", true⟩)] },
          none)
      ∧ onclose (fun _ f _ => f.id == 4) ⟨1006, "", false⟩
        (run (fun _ f _ => f.id == 4)
          [.addEventListener (.str "logout") ⟨1⟩, .addEventListener (.str "logout") ⟨2⟩,
           .addErrorHandler (.str "disconnect") ⟨3⟩, .addErrorHandler (.str "disconnect") ⟨4⟩,
           .addErrorHandler (.str "disconnect") ⟨5⟩]
          (World.init "localhost" "ada"))
        = ({ run (fun _ f _ => f.id == 4)
              [.addEventListener (.str "logout") ⟨1⟩, .addEventListener (.str "logout") ⟨2⟩,
               .addErrorHandler (.str "disconnect") ⟨3⟩,
               .addErrorHandler (.str "disconnect") ⟨4⟩,
               .addErrorHandler (.str "disconnect") ⟨5⟩]
              (World.init "localhost" "ada") with
            calls := [(⟨3⟩, .close ⟨1006, "", false⟩), (⟨4⟩, .close ⟨1006, "", false⟩)] },
          some (.thrownBy 4)) :=
  ⟨((C2_close_goes_to_one_registry (fun _ _ _ => false) "localhost" "ada"
      [.addEventListener (.str "logout") ⟨1⟩, .addEventListener (.str "logout") ⟨2⟩,
       .addErrorHandler (.str "disconnect") ⟨3⟩, .addErrorHandler (.str "disconnect") ⟨4⟩]
      ⟨1000, "", true⟩).2.2 [⟨1⟩, ⟨2⟩] [⟨3⟩, ⟨4⟩] (by decide) (by decide)).1
      (fun _ _ => rfl),
   ((C2_close_goes_to_one_registry (fun _ f _ => f.id == 4) "localhost" "ada"
      [.addEventListener (.str "logout") ⟨1⟩, .addEventListener (.str "logout") ⟨2⟩,
       .addErrorHandler (.str "disconnect") ⟨3⟩, .addErrorHandler (.str "disconnect") ⟨4⟩,
       .addErrorHandler (.str "disconnect") ⟨5⟩]
      ⟨1006, "", false⟩).2.2 [⟨1⟩, ⟨2⟩] [⟨3⟩, ⟨4⟩, ⟨5⟩] (by decide) (by decide)).2.1
      [⟨3⟩] ⟨4⟩ [⟨5⟩] rfl
      (fun j h => by
        have : j = 0 := by simpa using h
        subst this
        rfl)
      rfl⟩

/-! ## Listeners and inbound messages -/

theorem addEventListener_calls (eventType : JsVal) (f : Callback) (w : World) :
    (addEventListener eventType f w).1.calls = w.calls := by
  unfold addEventListener
  split
  · rfl
  · split <;> rfl

theorem new_listeners_empty (targetHost username kind : String) (known : kind ∈ eventKinds) :
    (World.init targetHost username).client.eventListeners.get ("on" ++ kind) = some [] := by
  have all : ∀ k ∈ eventKinds,
      List.lookup ("on" ++ k)
        [("onestablish", ([] : List Callback)), ("onlogin", []), ("onlogout", []),
         ("onjoin", []), ("onleave", []), ("onusermessage", []), ("onuserlogin", []),
         ("onuserlogout", []), ("onuserjoin", []), ("onuserleave", [])] = some [] := by
    decide
  exact all kind known

theorem run_registrations (throws : Throws) (registrations : List (String × Callback))
    (kind : String) (w : World) :
    (run throws (registrations.map fun r => Op.addEventListener (.str r.1) r.2)
        w).client.eventListeners.get ("on" ++ kind)
        = (w.client.eventListeners.get ("on" ++ kind)).map
            (fun l => l ++ (registrations.filter (fun r => r.1 = kind)).map Prod.snd)
      ∧ (run throws (registrations.map fun r => Op.addEventListener (.str r.1) r.2) w).calls
        = w.calls := by
  induction registrations generalizing w with
  | nil => simp [run]
  | cons r rest ih =>
    obtain ⟨ihget, ihcalls⟩ := ih (addEventListener (.str r.1) r.2 w).1
    simp only [run, List.map_cons, List.foldl_cons, step] at ihget ihcalls ⊢
    refine ⟨?_, by rw [ihcalls, addEventListener_calls]⟩
    rw [ihget, addEventListener_get]
    by_cases hk : r.1 = kind
    · subst hk
      cases w.client.eventListeners.get ("on" ++ r.1) <;> simp [jsToString, List.filter_cons]
    · have hne : ¬ ("on" ++ kind = "on" ++ r.1) :=
        fun he => hk (str_append_cancel _ _ _ he).symm
      simp [jsToString, List.filter_cons, hk, hne]

/-- Claim C3: after any sequence of `addEventListener` calls on a new client, an inbound
message whose `type` is the event kind `kind` makes the callback call, when none of the
listeners registered for `kind` throws on it, exactly the listeners registered for `kind`,
in registration order, as often as each was registered, each with the decoded message;
that is the whole invocation list, so no listener of another kind is called, and the
callback returns without an exception. -/
theorem C3_listeners_in_registration_order (throws : Throws) (targetHost username : String)
    (registrations : List (String × Callback)) (kind : String)
    (fields : List (String × JsVal))
    (known : kind ∈ eventKinds)
    (typed : getOwn "type" fields = .str kind)
    (quiet : ∀ history, ∀ r ∈ registrations, r.1 = kind →
      throws history r.2 (.value (.obj fields)) = false) :
    onmessage throws (some (.obj fields))
        (run throws (registrations.map fun r => Op.addEventListener (.str r.1) r.2)
          (World.init targetHost username))
      = ({ run throws (registrations.map fun r => Op.addEventListener (.str r.1) r.2)
              (World.init targetHost username) with
            calls := (registrations.filter (fun r => r.1 = kind)).map
              (fun r => (r.2, Payload.value (.obj fields))) },
          none) := by
  obtain ⟨hget, hcalls⟩ :=
    run_registrations throws registrations kind (World.init targetHost username)
  rw [new_listeners_empty targetHost username kind known] at hget
  simp only [Option.map_some', List.nil_append] at hget
  rw [onmessage_dispatch throws (.obj fields) (.str kind) _ (by simp [jsGet, typed])]
  simp only [callEventListeners, jsToString, hget]
  rw [forEachCall_all]
  · rw [hcalls]
    simp [World.init, List.map_map, Function.comp_def]
  · intro history f hf
    obtain ⟨r, hr, rfl⟩ := List.mem_map.mp hf
    have hr2 := List.mem_filter.mp hr
    exact quiet history r hr2.1 (by simpa using hr2.2)

theorem C3_listeners_in_registration_order_witness :
    "login" ∈ eventKinds
      ∧ getOwn "type" [("type", JsVal.str "login"), ("user", JsVal.str "bob")] = .str "login"
      ∧ (onmessage (fun _ _ _ => false)
          (some (.obj [("type", JsVal.str "login"), ("user", JsVal.str "bob")]))
          (run (fun _ _ _ => false)
            ([("login", Callback.mk 1), ("logout", Callback.mk 2), ("login", Callback.mk 1)].map
              fun r => Op.addEventListener (.str r.1) r.2)
            (World.init "localhost" "ada"))).1.calls
        = [(⟨1⟩, .value (.obj [("type", JsVal.str "login"), ("user", JsVal.str "bob")])),
           (⟨1⟩, .value (.obj [("type", JsVal.str "login"), ("user", JsVal.str "bob")]))] := by
  have h := C3_listeners_in_registration_order (fun _ _ _ => false) "localhost" "ada"
    [("login", Callback.mk 1), ("logout", Callback.mk 2), ("login", Callback.mk 1)] "login"
    [("type", JsVal.str "login"), ("user", JsVal.str "bob")]
    (by decide) rfl (fun _ _ _ _ => rfl)
  refine ⟨by decide, rfl, ?_⟩
  rw [h]
  rfl

/-! ## The current channel -/

theorem outcomes_append (throws : Throws) (ops : List Op) (op : Op) (w : World) :
    outcomes throws (ops ++ [op]) w
      = outcomes throws ops w ++ [(op, (step throws op (run throws ops w)).2)] := by
  induction ops generalizing w with
  | nil => simp [outcomes, run]
  | cons first rest ih =>
    have := ih (step throws first w).1
    simp only [run, List.foldl_cons] at this ⊢
    simp [outcomes, this]

theorem step_textChannel_other (throws : Throws) (op : Op) (w : World)
    (notJoin : ∀ a c, op ≠ .joinTextChannel a c) (notLeave : ∀ a, op ≠ .leaveTextChannel a) :
    (step throws op w).1.client.textChannel = w.client.textChannel := by
  cases op with
  | connect urlAccepted => cases urlAccepted <;> simp [step, connect]
  | sendMessage answer message => simp [step, sendMessage, (wsSend_client answer _ w).1]
  | joinTextChannel answer channel => exact absurd rfl (notJoin answer channel)
  | leaveTextChannel answer => exact absurd rfl (notLeave answer)
  | addEventListener eventType f =>
    rcases addEventListener_client eventType f w with h | ⟨text, -, -, h⟩ <;> simp [step, h]
  | addErrorHandler errorType f =>
    rcases addErrorHandler_client errorType f w with h | ⟨text, -, -, h⟩ <;> simp [step, h]
  | onmessage decoded => simp [step, (onmessage_client throws decoded w).1]
  | onerror event => simp [step, (onerror_client throws event w).1]
  | onclose event => simp [step, (onclose_client throws event w).1]

theorem step_specChannel (throws : Throws) (op : Op) (w : World)
    (earlier : List (Op × Option JsError))
    (h : w.client.textChannel = specCurrentChannel earlier) :
    (step throws op w).1.client.textChannel
      = specCurrentChannel ((op, (step throws op w).2) :: earlier) := by
  cases op with
  | joinTextChannel answer channel =>
    simp only [step, joinTextChannel_client]
    cases (joinTextChannel answer channel w).2 with
    | none => simp [specCurrentChannel]
    | some e => simp [specCurrentChannel, h]
  | leaveTextChannel answer =>
    simp only [step, leaveTextChannel_client]
    cases (leaveTextChannel answer w).2 with
    | none => simp [specCurrentChannel]
    | some e => simp [specCurrentChannel, h]
  | connect urlAccepted =>
    rw [step_textChannel_other throws _ w (by simp) (by simp), h]; simp [specCurrentChannel]
  | sendMessage answer message =>
    rw [step_textChannel_other throws _ w (by simp) (by simp), h]; simp [specCurrentChannel]
  | addEventListener eventType f =>
    rw [step_textChannel_other throws _ w (by simp) (by simp), h]; simp [specCurrentChannel]
  | addErrorHandler errorType f =>
    rw [step_textChannel_other throws _ w (by simp) (by simp), h]; simp [specCurrentChannel]
  | onmessage decoded =>
    rw [step_textChannel_other throws _ w (by simp) (by simp), h]; simp [specCurrentChannel]
  | onerror event =>
    rw [step_textChannel_other throws _ w (by simp) (by simp), h]; simp [specCurrentChannel]
  | onclose event =>
    rw [step_textChannel_other throws _ w (by simp) (by simp), h]; simp [specCurrentChannel]

theorem run_specChannel (throws : Throws) (ops : List Op) (w : World)
    (h : w.client.textChannel = none) :
    (run throws ops w).client.textChannel
      = specCurrentChannel (outcomes throws ops w).reverse := by
  induction ops using List.reverseRecOn with
  | nil => simp [run, outcomes, specCurrentChannel, h]
  | append_singleton ops op ih =>
    rw [run_append, outcomes_append, List.reverse_append, List.reverse_singleton,
      List.singleton_append]
    exact step_specChannel throws op _ _ ih

theorem wsSend_returns (answer : SendResult) (data : String) (w : World) :
    ((wsSend answer data w).2 = none ↔ (w.client.ws ≠ none ∧ answer = .accepted))
      ∧ ((wsSend answer data w).2 ≠ none → (wsSend answer data w).1 = w) := by
  unfold wsSend
  cases w.client.ws with
  | none => simp
  | some socket => cases answer <;> simp

/-- Claim C9: the current channel is `null` at construction, and in every state a client
can reach it is the argument of the most recent `joinTextChannel` call that returned,
unless a `leaveTextChannel` call that returned came after it, and `null` when there is no
such call. A `joinTextChannel` or `leaveTextChannel` call returns exactly when there is a
socket and its `send` takes the data; when it does not return (no socket yet, or `send`
throws) the exception reaches the caller and the world, the current channel included, is
as before. No other operation or socket callback changes the current channel. -/
theorem C9_current_channel (throws : Throws) (targetHost username : String)
    (ops : List Op) :
    (World.init targetHost username).client.textChannel = none
      ∧ (run throws ops (World.init targetHost username)).client.textChannel
          = specCurrentChannel (outcomes throws ops (World.init targetHost username)).reverse
      ∧ (∀ (w : World) (answer : SendResult) (channel : String),
          ((joinTextChannel answer channel w).2 = none
              ↔ (w.client.ws ≠ none ∧ answer = .accepted))
            ∧ ((leaveTextChannel answer w).2 = none
              ↔ (w.client.ws ≠ none ∧ answer = .accepted))
            ∧ ((joinTextChannel answer channel w).2 ≠ none →
                (joinTextChannel answer channel w).1 = w)
            ∧ ((leaveTextChannel answer w).2 ≠ none → (leaveTextChannel answer w).1 = w))
      ∧ (∀ (w : World) (op : Op), (∀ a c, op ≠ .joinTextChannel a c) →
          (∀ a, op ≠ .leaveTextChannel a) →
          (step throws op w).1.client.textChannel = w.client.textChannel) := by
  refine ⟨rfl, run_specChannel throws ops _ rfl, ?_, fun w op h1 h2 =>
    step_textChannel_other throws op w h1 h2⟩
  intro w answer channel
  have hj := wsSend_returns answer
    (JSON.stringify [("type", AromaEvent.join), ("channel", channel)]) w
  have hl := wsSend_returns answer (JSON.stringify [("type", AromaEvent.leave)]) w
  unfold joinTextChannel leaveTextChannel
  refine ⟨?_, ?_, ?_, ?_⟩
  · rw [← hj.1]
    split <;> simp_all
  · rw [← hl.1]
    split <;> simp_all
  · have := hj.2
    split <;> simp_all
  · have := hl.2
    split <;> simp_all

theorem C9_current_channel_witness :
    (run (fun _ _ _ => false)
        [.joinTextChannel .accepted "early", .connect true,
         .joinTextChannel .accepted "general", .joinTextChannel .invalidState "late",
         .sendMessage .accepted "hello", .onclose ⟨1006, "", false⟩]
        (World.init "localhost" "ada")).client.textChannel = some "general"
      ∧ specCurrentChannel
          (outcomes (fun _ _ _ => false)
            [.joinTextChannel .accepted "early", .connect true,
             .joinTextChannel .accepted "general", .joinTextChannel .invalidState "late",
             .sendMessage .accepted "hello", .onclose ⟨1006, "", false⟩]
            (World.init "localhost" "ada")).reverse = some "general" := by
  have h := (C9_current_channel (fun _ _ _ => false) "localhost" "ada"
    [.joinTextChannel .accepted "early", .connect true,
     .joinTextChannel .accepted "general", .joinTextChannel .invalidState "late",
     .sendMessage .accepted "hello", .onclose ⟨1006, "", false⟩]).2.1
  refine ⟨by decide, ?_⟩
  rw [← h]
  decide

end Aromalib
